import Mathlib

/-!
Shallow embedding of `src/main.py` ("Nokia Classics" — snake + platform/ladder
hybrid simulation engine).  Python integers are modelled as `Int` (coordinates)
and `Nat` (counters and scores, which never go below zero in the source);
Python `%` on a positive modulus agrees with `Int.emod` / `Nat.mod`.
Python's runtime-keyed `hash(salt + bytes(score))` is modelled as an abstract
function `H : Nat → Int` mapping the current score to the hash value; the
salt only enters through that opaque hash, so it does not appear separately.
Fallible operations (`IndexError` on an empty list, and the spec's fatal
pellet-placement failure) are modelled with `Option`: `none` is an error
surfaced to the caller.
-/

set_option maxRecDepth 40000

namespace NokiaClassics

/-- `Dir` (IntEnum NORTH=0, EAST=1, SOUTH=2, WEST=3) from `src/main.py`. -/
inductive Dir where
  | north
  | east
  | south
  | west
deriving DecidableEq, Repr

/-- The numeric value of a `Dir`, as in the Python `IntEnum`. -/
def Dir.toInt : Dir → Int
  | .north => 0
  | .east => 1
  | .south => 2
  | .west => 3

/-- `Dir(v % 4)`: reconstruct a `Dir` from an integer, as the Python
`Dir((self._heading ± 1) % 4)` does. -/
def Dir.ofMod (n : Int) : Dir :=
  if n.emod 4 = 0 then .north
  else if n.emod 4 = 1 then .east
  else if n.emod 4 = 2 then .south
  else .west

/-- `Segment` dataclass: a single immutable (x, y) cell of the worm. -/
structure Segment where
  x : Int
  y : Int
deriving DecidableEq, Repr

/-- `Segment.moved`: offset by the unit vector of a heading
(dx: E=+1, W=-1; dy: N=-1, S=+1). -/
def Segment.moved (s : Segment) (d : Dir) : Segment :=
  match d with
  | .north => ⟨s.x + 0, s.y + (-1)⟩
  | .east => ⟨s.x + 1, s.y + 0⟩
  | .south => ⟨s.x + 0, s.y + 1⟩
  | .west => ⟨s.x + (-1), s.y + 0⟩

/-- `RasterConfig`: the immutable grid and scoring configuration.  The timing
fields (`tick_ms`, `tick_ms_min`) and the byte salt are carried by the source
but never read by the simulation logic embedded here (the salt only feeds the
abstracted hash), so they are omitted. -/
structure RasterConfig where
  width : Int
  height : Int
  scorePerPellet : Nat
  goalBonus : Nat
  platformRows : List Int
  ladderCols : List (Int × Int × Int)
  goalPos : Int × Int
  barrelTickInterval : Nat
deriving DecidableEq, Repr

/-- The default `RasterConfig()` built from the module constants. -/
def defaultConfig : RasterConfig where
  width := 36
  height := 28
  scorePerPellet := 11
  goalBonus := 100
  platformRows := [2, 6, 10, 14, 18, 22, 26]
  ladderCols := [(4, 2, 26), (12, 2, 26), (20, 2, 26), (28, 2, 26)]
  goalPos := (18, 2)
  barrelTickInterval := 2

/-- `_is_platform_row`: `y in cfg.platform_rows`. -/
def isPlatformRow (cfg : RasterConfig) (y : Int) : Bool :=
  cfg.platformRows.contains y

/-- `_is_ladder_cell`: some ladder `(lx, y_lo, y_hi)` has `x = lx` and
`y_lo ≤ y ≤ y_hi`. -/
def isLadderCell (cfg : RasterConfig) (x y : Int) : Bool :=
  cfg.ladderCols.any fun t => x == t.1 && decide (t.2.1 ≤ y) && decide (y ≤ t.2.2)

/-- `_is_valid_cell`: inside grid bounds and on a platform row or ladder cell. -/
def isValidCell (cfg : RasterConfig) (x y : Int) : Bool :=
  if ¬ (0 ≤ x ∧ x < cfg.width ∧ 0 ≤ y ∧ y < cfg.height) then false
  else isPlatformRow cfg y || isLadderCell cfg x y

/-- `Barrel` dataclass: rolling hazard (x, y, dx). -/
structure Barrel where
  x : Int
  y : Int
  dx : Int
deriving DecidableEq, Repr

/-- `Barrel.tick`: advance one cell horizontally, reversing direction in place
when the next cell leaves the grid horizontally or is not a valid cell. -/
def Barrel.tick (b : Barrel) (cfg : RasterConfig) : Barrel :=
  let nx := b.x + b.dx
  if nx < 0 ∨ cfg.width ≤ nx then ⟨b.x, b.y, -b.dx⟩
  else if isValidCell cfg nx b.y = false then ⟨b.x, b.y, -b.dx⟩
  else ⟨nx, b.y, b.dx⟩

/-- `NokiaClassics._can_move_to`: the ordered movement-legality rule chain,
translated line by line from the source. -/
def canMoveTo (cfg : RasterConfig) (cur : Segment) (nx ny : Int) : Bool :=
  if isValidCell cfg nx ny = false then false
  else
    let onLadder := isLadderCell cfg cur.x cur.y
    let onPlatform := isPlatformRow cfg cur.y
    let toLadder := isLadderCell cfg nx ny
    let toPlatform := isPlatformRow cfg ny
    if onLadder && toLadder then true
    else if onLadder && toPlatform && ny != cur.y then false
    else if onPlatform && toPlatform && cur.y == ny then true
    else if onPlatform && toLadder then true
    else if onLadder && toPlatform && cur.x == nx then true
    else false

/-- §4.2 of the spec, written as its ordered rule table (first true wins):
1 target not valid → illegal; 2 ladder→ladder → legal; 3 ladder→platform of a
different row → illegal; 4 platform→platform same row → legal;
5 platform→ladder → legal; 6 ladder→platform sharing the ladder's column →
legal; 7 otherwise illegal.  Used only to compare with `canMoveTo`. -/
def specMoveRule (cfg : RasterConfig) (cur : Segment) (nx ny : Int) : Bool :=
  if isValidCell cfg nx ny = false then false
  else if isLadderCell cfg cur.x cur.y && isLadderCell cfg nx ny then true
  else if isLadderCell cfg cur.x cur.y && isPlatformRow cfg ny && ny != cur.y then false
  else if isPlatformRow cfg cur.y && isPlatformRow cfg ny && cur.y == ny then true
  else if isPlatformRow cfg cur.y && isLadderCell cfg nx ny then true
  else if isLadderCell cfg cur.x cur.y && isPlatformRow cfg ny && cur.x == nx then true
  else false

/-- `_collides_self` / `_collides_barrel` share this shape: some listed
position coincides with the head. -/
def collidesSelf (worm : List Segment) (head : Segment) : Bool :=
  worm.any fun p => p.x == head.x && p.y == head.y

/-- `_collides_barrel`: some barrel occupies the head cell. -/
def collidesBarrel (barrels : List Barrel) (head : Segment) : Bool :=
  barrels.any fun b => b.x == head.x && b.y == head.y

/-- Candidate cell `i` of the pellet scan:
`px = (hsh + i*17) % w`, `py = (hsh + i*13) % h` (source lines 251-252). -/
def pelletCandidate (cfg : RasterConfig) (hsh : Int) (i : Nat) : Segment :=
  ⟨(hsh + (i : Int) * 17).emod cfg.width, (hsh + (i : Int) * 13).emod cfg.height⟩

/-- Modelled from the spec: the tail of `_spawn_pellet` (the acceptance test on
each candidate, the assignment of the pellet, and the behaviour when the scan
is exhausted) is missing from `src/main.py`, which is truncated right after the
candidate formulas.  Per §4.5 a candidate is accepted when it `isValidCell` and
is not occupied by any trail segment. -/
def acceptPellet (cfg : RasterConfig) (hsh : Int) (worm : List Segment) (i : Nat) : Bool :=
  isValidCell cfg (pelletCandidate cfg hsh i).x (pelletCandidate cfg hsh i).y &&
    !(worm.contains (pelletCandidate cfg hsh i))

/-- Modelled from the spec: `_spawn_pellet` scans `i = 0 .. w*h - 1` (source
line 250) and the first accepted candidate becomes the pellet (§4.5); if no
candidate qualifies this is a fatal error surfaced to the caller (§7),
modelled as `none`. -/
def spawnPellet (cfg : RasterConfig) (hsh : Int) (worm : List Segment) : Option Segment :=
  ((List.range (cfg.width * cfg.height).toNat).find? (acceptPellet cfg hsh worm)).map
    (pelletCandidate cfg hsh)

/-- The mutable state of a `NokiaClassics` instance. -/
structure GameState where
  worm : List Segment
  heading : Dir
  score : Nat
  pellet : Segment
  alive : Bool
  goalReached : Nat
  barrels : List Barrel
  tickCount : Nat
deriving DecidableEq, Repr

/-- `NokiaClassics.__init__` with the default configuration: head at
(18, 22), heading NORTH, pellet seeded at (6, 6), barrels from
`BARREL_STARTS`. -/
def initState : GameState where
  worm := [⟨18, 22⟩]
  heading := .north
  score := 0
  pellet := ⟨6, 6⟩
  alive := true
  goalReached := 0
  barrels := [⟨2, 2, 1⟩, ⟨34, 6, -1⟩, ⟨4, 10, 1⟩, ⟨32, 14, -1⟩, ⟨8, 18, 1⟩, ⟨28, 22, -1⟩]
  tickCount := 0

/-- `turn_left`: no-op when dead, otherwise rotate the heading by -1 mod 4. -/
def turnLeft (s : GameState) : GameState :=
  if s.alive = false then s
  else { s with heading := Dir.ofMod (s.heading.toInt - 1) }

/-- `turn_right`: no-op when dead, otherwise rotate the heading by +1 mod 4. -/
def turnRight (s : GameState) : GameState :=
  if s.alive = false then s
  else { s with heading := Dir.ofMod (s.heading.toInt + 1) }

/-- The barrel-advancement phase at the end of `tick` (source lines 241-244):
when the incremented tick counter is divisible by the interval, every barrel
advances one step and the head (`self._worm[0]`) is re-checked against the new
barrel positions.  Reading the head of an empty worm is the Python
`IndexError`, modelled as `none`. -/
def barrelPhase (cfg : RasterConfig) (s : GameState) : Option GameState :=
  if s.tickCount % cfg.barrelTickInterval = 0 then
    match s.worm.head? with
    | none => none
    | some hd =>
      let bs := s.barrels.map fun b => b.tick cfg
      if collidesBarrel bs hd then some { s with barrels := bs, alive := false }
      else some { s with barrels := bs }
  else some s

/-- `NokiaClassics.tick`, translated in the source's order: dead → no-op;
increment counter; candidate head; legality check (illegal → return, counter
already incremented); self collision → die; barrel collision → die; prepend
head; goal bonus; pellet consumption (score, respawn, no shrink) or tail pop;
barrel phase.  `H` abstracts `hash(salt + bytes(score))`; `none` is a raised
error (empty worm, or pellet-scan exhaustion per §7). -/
def tick (cfg : RasterConfig) (H : Nat → Int) (s : GameState) : Option GameState :=
  if s.alive = false then some s
  else
    match s.worm.head? with
    | none => none
    | some head0 =>
      let t := s.tickCount + 1
      let cand := head0.moved s.heading
      if canMoveTo cfg head0 cand.x cand.y = false then some { s with tickCount := t }
      else if collidesSelf s.worm cand then some { s with tickCount := t, alive := false }
      else if collidesBarrel s.barrels cand then some { s with tickCount := t, alive := false }
      else
        let worm2 := cand :: s.worm
        let hitGoal := cand.x == cfg.goalPos.1 && cand.y == cfg.goalPos.2
        let score2 := if hitGoal then s.score + cfg.goalBonus else s.score
        let goal2 := if hitGoal then s.goalReached + 1 else s.goalReached
        if cand.x == s.pellet.x && cand.y == s.pellet.y then
          match spawnPellet cfg (H (score2 + cfg.scorePerPellet)) worm2 with
          | none => none
          | some p =>
            barrelPhase cfg { s with worm := worm2, score := score2 + cfg.scorePerPellet,
                                     pellet := p, goalReached := goal2, tickCount := t }
        else
          barrelPhase cfg { s with worm := worm2.dropLast, score := score2,
                                   goalReached := goal2, tickCount := t }

/-- Reachable states of a default-configuration simulation: the initial state,
closed under successful `tick` (for any hash oracle) and the two turns. -/
inductive Reach : GameState → Prop where
  | init : Reach initState
  | step (H : Nat → Int) (s s' : GameState) : Reach s →
      tick defaultConfig H s = some s' → Reach s'
  | left (s : GameState) : Reach s → Reach (turnLeft s)
  | right (s : GameState) : Reach s → Reach (turnRight s)

/-- The barrel relation maintained by `Reach`: same row as the corresponding
starting barrel, and a valid current cell. -/
def barrelOk (b b0 : Barrel) : Prop :=
  b.y = b0.y ∧ isValidCell defaultConfig b.x b.y = true

/-- The hash oracle used by the concrete witness states: every spawn hashes
to 0. -/
def zeroHash : Nat → Int := fun _ => 0

/-- A terminated state used as a witness for absorption. -/
def deadState : GameState := { initState with alive := false }

/-- Witness state for C1: head at (5, 6) moving east onto the pellet (6, 6). -/
def c1State : GameState where
  worm := [⟨5, 6⟩]
  heading := .east
  score := 0
  pellet := ⟨6, 6⟩
  alive := true
  goalReached := 0
  barrels := initState.barrels
  tickCount := 0

/-- The state produced by `tick` from `c1State` with the zero hash oracle. -/
def c1Result : GameState where
  worm := [⟨6, 6⟩, ⟨5, 6⟩]
  heading := .east
  score := 11
  pellet := ⟨34, 26⟩
  alive := true
  goalReached := 0
  barrels := initState.barrels
  tickCount := 1

/-- Witness state for C4: a legal pellet-consuming move with tick counter 1,
so the incremented counter 2 is divisible by the hazard interval. -/
def c4wState : GameState where
  worm := [⟨5, 6⟩]
  heading := .east
  score := 0
  pellet := ⟨6, 6⟩
  alive := true
  goalReached := 0
  barrels := initState.barrels
  tickCount := 1

/-- The state produced by `tick` from `c4wState` with the zero hash oracle. -/
def c4wResult : GameState where
  worm := [⟨6, 6⟩, ⟨5, 6⟩]
  heading := .east
  score := 11
  pellet := ⟨34, 26⟩
  alive := true
  goalReached := 0
  barrels := [⟨3, 2, 1⟩, ⟨33, 6, -1⟩, ⟨5, 10, 1⟩, ⟨31, 14, -1⟩, ⟨9, 18, 1⟩, ⟨27, 22, -1⟩]
  tickCount := 2

/-- Counterexample state for C8: the pellet sits on the goal cell (18, 2) and
the head at (17, 2) moves east onto it. -/
def c8CexState : GameState where
  worm := [⟨17, 2⟩]
  heading := .east
  score := 0
  pellet := ⟨18, 2⟩
  alive := true
  goalReached := 0
  barrels := initState.barrels
  tickCount := 0

/-- Witness state for C8: a legal westward pellet consumption away from the
goal cell. -/
def c8wState : GameState where
  worm := [⟨7, 6⟩]
  heading := .west
  score := 0
  pellet := ⟨6, 6⟩
  alive := true
  goalReached := 0
  barrels := initState.barrels
  tickCount := 0

/-- The state produced by `tick` from `c8wState` with the zero hash oracle. -/
def c8wResult : GameState where
  worm := [⟨6, 6⟩, ⟨7, 6⟩]
  heading := .west
  score := 11
  pellet := ⟨34, 26⟩
  alive := true
  goalReached := 0
  barrels := initState.barrels
  tickCount := 1

/-- A tiny configuration whose only valid cells are the three ladder cells of
column 0, used to exhibit a saturated board. -/
def satConfig : RasterConfig where
  width := 1
  height := 3
  scorePerPellet := 1
  goalBonus := 5
  platformRows := []
  ladderCols := [(0, 0, 2)]
  goalPos := (7, 7)
  barrelTickInterval := 2

/-- A saturated-board state: after the consuming move the trail covers all
three valid cells, so no pellet cell qualifies. -/
def satState : GameState where
  worm := [⟨0, 1⟩, ⟨0, 2⟩]
  heading := .north
  score := 0
  pellet := ⟨0, 0⟩
  alive := true
  goalReached := 0
  barrels := []
  tickCount := 0

lemma tick_dead (cfg : RasterConfig) (H : Nat → Int) (s : GameState)
    (h : s.alive = false) : tick cfg H s = some s := by
  simp [tick, h]

lemma tick_none_of_nil (cfg : RasterConfig) (H : Nat → Int) (s : GameState)
    (ha : s.alive = true) (hw : s.worm = []) : tick cfg H s = none := by
  simp [tick, ha, hw]

lemma tick_illegal (cfg : RasterConfig) (H : Nat → Int) (s : GameState)
    (head0 : Segment) (rest : List Segment)
    (ha : s.alive = true) (hw : s.worm = head0 :: rest)
    (hleg : canMoveTo cfg head0 (head0.moved s.heading).x (head0.moved s.heading).y = false) :
    tick cfg H s = some { s with tickCount := s.tickCount + 1 } := by
  simp [tick, ha, hw, hleg]

lemma tick_selfHit (cfg : RasterConfig) (H : Nat → Int) (s : GameState)
    (head0 : Segment) (rest : List Segment)
    (ha : s.alive = true) (hw : s.worm = head0 :: rest)
    (hleg : canMoveTo cfg head0 (head0.moved s.heading).x (head0.moved s.heading).y = true)
    (hself : collidesSelf s.worm (head0.moved s.heading) = true) :
    tick cfg H s = some { s with tickCount := s.tickCount + 1, alive := false } := by
  simp [tick, ha, hw, hleg]
  rw [hw] at hself
  simp [hself]

lemma tick_barrelHit (cfg : RasterConfig) (H : Nat → Int) (s : GameState)
    (head0 : Segment) (rest : List Segment)
    (ha : s.alive = true) (hw : s.worm = head0 :: rest)
    (hleg : canMoveTo cfg head0 (head0.moved s.heading).x (head0.moved s.heading).y = true)
    (hself : collidesSelf s.worm (head0.moved s.heading) = false)
    (hbar : collidesBarrel s.barrels (head0.moved s.heading) = true) :
    tick cfg H s = some { s with tickCount := s.tickCount + 1, alive := false } := by
  rw [hw] at hself
  simp [tick, ha, hw, hleg, hself, hbar]

lemma tick_consume_none (cfg : RasterConfig) (H : Nat → Int) (s : GameState)
    (head0 : Segment) (rest : List Segment)
    (ha : s.alive = true) (hw : s.worm = head0 :: rest)
    (hleg : canMoveTo cfg head0 (head0.moved s.heading).x (head0.moved s.heading).y = true)
    (hself : collidesSelf s.worm (head0.moved s.heading) = false)
    (hbar : collidesBarrel s.barrels (head0.moved s.heading) = false)
    (hpel : ((head0.moved s.heading).x == s.pellet.x && (head0.moved s.heading).y == s.pellet.y) = true)
    (hsp : spawnPellet cfg
        (H ((if ((head0.moved s.heading).x == cfg.goalPos.1 && (head0.moved s.heading).y == cfg.goalPos.2)
             then s.score + cfg.goalBonus else s.score) + cfg.scorePerPellet))
        ((head0.moved s.heading) :: s.worm) = none) :
    tick cfg H s = none := by
  rw [hw] at hself hsp
  simp at hsp
  simp [tick, ha, hw, hleg, hself, hbar, hpel, hsp]

lemma tick_consume_some (cfg : RasterConfig) (H : Nat → Int) (s : GameState)
    (head0 : Segment) (rest : List Segment) (p : Segment)
    (ha : s.alive = true) (hw : s.worm = head0 :: rest)
    (hleg : canMoveTo cfg head0 (head0.moved s.heading).x (head0.moved s.heading).y = true)
    (hself : collidesSelf s.worm (head0.moved s.heading) = false)
    (hbar : collidesBarrel s.barrels (head0.moved s.heading) = false)
    (hpel : ((head0.moved s.heading).x == s.pellet.x && (head0.moved s.heading).y == s.pellet.y) = true)
    (hsp : spawnPellet cfg
        (H ((if ((head0.moved s.heading).x == cfg.goalPos.1 && (head0.moved s.heading).y == cfg.goalPos.2)
             then s.score + cfg.goalBonus else s.score) + cfg.scorePerPellet))
        ((head0.moved s.heading) :: s.worm) = some p) :
    tick cfg H s = barrelPhase cfg { s with
      worm := (head0.moved s.heading) :: s.worm,
      score := (if ((head0.moved s.heading).x == cfg.goalPos.1 && (head0.moved s.heading).y == cfg.goalPos.2)
                then s.score + cfg.goalBonus else s.score) + cfg.scorePerPellet,
      pellet := p,
      goalReached := (if ((head0.moved s.heading).x == cfg.goalPos.1 && (head0.moved s.heading).y == cfg.goalPos.2)
                      then s.goalReached + 1 else s.goalReached),
      tickCount := s.tickCount + 1 } := by
  rw [hw] at hself hsp
  simp at hsp
  simp [tick, ha, hw, hleg, hself, hbar, hpel, hsp]

lemma tick_plain (cfg : RasterConfig) (H : Nat → Int) (s : GameState)
    (head0 : Segment) (rest : List Segment)
    (ha : s.alive = true) (hw : s.worm = head0 :: rest)
    (hleg : canMoveTo cfg head0 (head0.moved s.heading).x (head0.moved s.heading).y = true)
    (hself : collidesSelf s.worm (head0.moved s.heading) = false)
    (hbar : collidesBarrel s.barrels (head0.moved s.heading) = false)
    (hpel : ((head0.moved s.heading).x == s.pellet.x && (head0.moved s.heading).y == s.pellet.y) = false) :
    tick cfg H s = barrelPhase cfg { s with
      worm := ((head0.moved s.heading) :: s.worm).dropLast,
      score := (if ((head0.moved s.heading).x == cfg.goalPos.1 && (head0.moved s.heading).y == cfg.goalPos.2)
                then s.score + cfg.goalBonus else s.score),
      goalReached := (if ((head0.moved s.heading).x == cfg.goalPos.1 && (head0.moved s.heading).y == cfg.goalPos.2)
                      then s.goalReached + 1 else s.goalReached),
      tickCount := s.tickCount + 1 } := by
  rw [hw] at hself
  simp [tick, ha, hw, hleg, hself, hbar, hpel]

lemma barrelPhase_nondiv (cfg : RasterConfig) (s : GameState)
    (h : ¬ s.tickCount % cfg.barrelTickInterval = 0) : barrelPhase cfg s = some s := by
  simp [barrelPhase, h]

lemma barrelPhase_div (cfg : RasterConfig) (s : GameState) (hd : Segment) (tl : List Segment)
    (hw : s.worm = hd :: tl) (hdiv : s.tickCount % cfg.barrelTickInterval = 0) :
    barrelPhase cfg s =
      (if collidesBarrel (s.barrels.map fun b => b.tick cfg) hd
       then some { s with barrels := s.barrels.map fun b => b.tick cfg, alive := false }
       else some { s with barrels := s.barrels.map fun b => b.tick cfg }) := by
  simp [barrelPhase, hw, hdiv]

lemma barrelPhase_some_inv (cfg : RasterConfig) (s s' : GameState)
    (h : barrelPhase cfg s = some s') :
    s'.worm = s.worm ∧ s'.heading = s.heading ∧ s'.score = s.score ∧ s'.pellet = s.pellet ∧
    s'.goalReached = s.goalReached ∧ s'.tickCount = s.tickCount ∧
    (s'.barrels = s.barrels ∨ s'.barrels = s.barrels.map fun b => b.tick cfg) := by
  by_cases hdiv : s.tickCount % cfg.barrelTickInterval = 0
  · cases hw : s.worm with
    | nil =>
      exfalso
      simp [barrelPhase, hdiv, hw] at h
    | cons hd tl =>
      rw [barrelPhase_div cfg s hd tl hw hdiv] at h
      by_cases hc : collidesBarrel (s.barrels.map fun b => b.tick cfg) hd = true
      · rw [if_pos hc] at h
        injection h with h
        subst h
        exact ⟨hw, rfl, rfl, rfl, rfl, rfl, Or.inr rfl⟩
      · rw [if_neg hc] at h
        injection h with h
        subst h
        exact ⟨hw, rfl, rfl, rfl, rfl, rfl, Or.inr rfl⟩
  · rw [barrelPhase_nondiv cfg s hdiv] at h
    injection h with h
    subst h
    exact ⟨rfl, rfl, rfl, rfl, rfl, rfl, Or.inl rfl⟩

lemma tick_some_inv (cfg : RasterConfig) (H : Nat → Int) (s s' : GameState)
    (h : tick cfg H s = some s') :
    (s'.barrels = s.barrels ∨ s'.barrels = s.barrels.map fun b => b.tick cfg) ∧
    (1 ≤ s.worm.length → 1 ≤ s'.worm.length) := by
  cases ha : s.alive with
  | false =>
    rw [tick_dead cfg H s ha] at h
    injection h with h
    subst h
    exact ⟨Or.inl rfl, fun hl => hl⟩
  | true =>
    cases hw : s.worm with
    | nil =>
      rw [tick_none_of_nil cfg H s ha hw] at h
      cases h
    | cons head0 rest =>
      cases hleg : canMoveTo cfg head0 (head0.moved s.heading).x (head0.moved s.heading).y with
      | false =>
        rw [tick_illegal cfg H s head0 rest ha hw hleg] at h
        injection h with h
        subst h
        exact ⟨Or.inl rfl, fun hl => by simp [hw]⟩
      | true =>
        cases hself : collidesSelf s.worm (head0.moved s.heading) with
        | true =>
          rw [tick_selfHit cfg H s head0 rest ha hw hleg hself] at h
          injection h with h
          subst h
          exact ⟨Or.inl rfl, fun hl => by simp [hw]⟩
        | false =>
          cases hbar : collidesBarrel s.barrels (head0.moved s.heading) with
          | true =>
            rw [tick_barrelHit cfg H s head0 rest ha hw hleg hself hbar] at h
            injection h with h
            subst h
            exact ⟨Or.inl rfl, fun hl => by simp [hw]⟩
          | false =>
            cases hpel : ((head0.moved s.heading).x == s.pellet.x &&
                (head0.moved s.heading).y == s.pellet.y) with
            | true =>
              cases hsp : spawnPellet cfg
                  (H ((if ((head0.moved s.heading).x == cfg.goalPos.1 &&
                          (head0.moved s.heading).y == cfg.goalPos.2)
                       then s.score + cfg.goalBonus else s.score) + cfg.scorePerPellet))
                  ((head0.moved s.heading) :: s.worm) with
              | none =>
                rw [tick_consume_none cfg H s head0 rest ha hw hleg hself hbar hpel hsp] at h
                cases h
              | some p =>
                rw [tick_consume_some cfg H s head0 rest p ha hw hleg hself hbar hpel hsp] at h
                obtain ⟨hworm, -, -, -, -, -, hbars⟩ := barrelPhase_some_inv _ _ _ h
                refine ⟨hbars, fun hl => ?_⟩
                rw [hworm]
                simp
            | false =>
              rw [tick_plain cfg H s head0 rest ha hw hleg hself hbar hpel] at h
              obtain ⟨hworm, -, -, -, -, -, hbars⟩ := barrelPhase_some_inv _ _ _ h
              refine ⟨hbars, fun hl => ?_⟩
              rw [hworm]
              simp [hw]

lemma turnLeft_frame (s : GameState) :
    (turnLeft s).worm = s.worm ∧ (turnLeft s).barrels = s.barrels ∧
    (turnLeft s).alive = s.alive := by
  unfold turnLeft
  split <;> exact ⟨rfl, rfl, rfl⟩

lemma turnRight_frame (s : GameState) :
    (turnRight s).worm = s.worm ∧ (turnRight s).barrels = s.barrels ∧
    (turnRight s).alive = s.alive := by
  unfold turnRight
  split <;> exact ⟨rfl, rfl, rfl⟩

lemma barrel_tick_valid (cfg : RasterConfig) (b : Barrel)
    (hv : isValidCell cfg b.x b.y = true) :
    isValidCell cfg (b.tick cfg).x (b.tick cfg).y = true := by
  simp only [Barrel.tick]
  split
  · exact hv
  · split
    · exact hv
    · rename_i hval
      simpa using hval

lemma barrel_tick_y (cfg : RasterConfig) (b : Barrel) : (b.tick cfg).y = b.y := by
  simp only [Barrel.tick]
  split
  · rfl
  · split <;> rfl

lemma barrelOk_tick (b b0 : Barrel) (h : barrelOk b b0) :
    barrelOk (b.tick defaultConfig) b0 :=
  ⟨(barrel_tick_y defaultConfig b).trans h.1, barrel_tick_valid defaultConfig b h.2⟩

lemma forall2_barrelOk_map {l l0 : List Barrel}
    (h : List.Forall₂ barrelOk l l0) :
    List.Forall₂ barrelOk (l.map fun b => b.tick defaultConfig) l0 := by
  induction h with
  | nil => simp
  | cons hab _ ih => simpa using List.Forall₂.cons (barrelOk_tick _ _ hab) ih

lemma reach_inv (s : GameState) (h : Reach s) :
    List.Forall₂ barrelOk s.barrels initState.barrels ∧ 1 ≤ s.worm.length := by
  induction h with
  | init =>
    constructor
    · refine .cons ⟨rfl, by decide⟩ (.cons ⟨rfl, by decide⟩ (.cons ⟨rfl, by decide⟩
        (.cons ⟨rfl, by decide⟩ (.cons ⟨rfl, by decide⟩ (.cons ⟨rfl, by decide⟩ .nil)))))
    · decide
  | step H s s' hr htick ih =>
    obtain ⟨hbars, hlen⟩ := tick_some_inv _ _ _ _ htick
    constructor
    · rcases hbars with hb | hb
      · rw [hb]; exact ih.1
      · rw [hb]; exact forall2_barrelOk_map ih.1
    · exact hlen ih.2
  | left s hr ih =>
    obtain ⟨hworm, hbars, -⟩ := turnLeft_frame s
    rw [hworm, hbars]
    exact ih
  | right s hr ih =>
    obtain ⟨hworm, hbars, -⟩ := turnRight_frame s
    rw [hworm, hbars]
    exact ih

lemma find?_first {α : Type} (p : α → Bool) :
    ∀ (l : List α) (a : α), l.find? p = some a →
      ∃ k, ∃ hk : k < l.length, l.get ⟨k, hk⟩ = a ∧ p a = true ∧
        ∀ j, ∀ hj : j < l.length, j < k → p (l.get ⟨j, hj⟩) = false := by
  intro l
  induction l with
  | nil => intro a h; simp at h
  | cons x xs ih =>
    intro a h
    cases hx : p x with
    | true =>
      rw [List.find?_cons_of_pos _ hx] at h
      injection h with h
      subst h
      exact ⟨0, Nat.succ_pos _, rfl, hx, fun j hj hj0 => absurd hj0 (Nat.not_lt_zero j)⟩
    | false =>
      rw [List.find?_cons_of_neg _ (by simp [hx])] at h
      obtain ⟨k, hk, hget, hpa, hfirst⟩ := ih a h
      refine ⟨k + 1, Nat.succ_lt_succ hk, hget, hpa, ?_⟩
      intro j hj hj0
      cases j with
      | zero => exact hx
      | succ j' => exact hfirst j' (Nat.lt_of_succ_lt_succ hj) (Nat.lt_of_succ_lt_succ hj0)

lemma find?_range_first {n : Nat} {p : Nat → Bool} {i : Nat}
    (h : (List.range n).find? p = some i) :
    i < n ∧ p i = true ∧ ∀ j, j < i → p j = false := by
  obtain ⟨k, hk, hget, hpa, hfirst⟩ := find?_first p (List.range n) i h
  have hik : i = k := by
    rw [← hget, List.get_eq_getElem, List.getElem_range]
  subst hik
  have hlen := List.length_range n
  refine ⟨by omega, hpa, ?_⟩
  intro j hji
  have hj : j < (List.range n).length := by omega
  have hres := hfirst j hj hji
  rwa [List.get_eq_getElem, List.getElem_range] at hres

lemma barrelPhase_c4 {cfg : RasterConfig} {u s' : GameState} {hd : Segment} {tl : List Segment}
    (ht : barrelPhase cfg u = some s') (hw : u.worm = hd :: tl) (ha : u.alive = true) :
    (u.tickCount % cfg.barrelTickInterval = 0 →
        s'.barrels = u.barrels.map (fun b => b.tick cfg) ∧
        s'.alive = !collidesBarrel (u.barrels.map fun b => b.tick cfg) hd) ∧
    (¬ u.tickCount % cfg.barrelTickInterval = 0 →
        s'.barrels = u.barrels ∧ s'.alive = true) := by
  by_cases hdiv : u.tickCount % cfg.barrelTickInterval = 0
  · rw [barrelPhase_div cfg u hd tl hw hdiv] at ht
    cases hc : collidesBarrel (u.barrels.map fun b => b.tick cfg) hd with
    | true =>
      rw [if_pos hc] at ht
      injection ht with ht
      subst ht
      exact ⟨fun _ => ⟨rfl, rfl⟩, fun hn => absurd hdiv hn⟩
    | false =>
      rw [if_neg (by simp [hc])] at ht
      injection ht with ht
      subst ht
      refine ⟨fun _ => ⟨rfl, ?_⟩, fun hn => absurd hdiv hn⟩
      simpa using ha
  · rw [barrelPhase_nondiv cfg u hdiv] at ht
    injection ht with ht
    subst ht
    exact ⟨fun hd' => absurd hd' hdiv, fun _ => ⟨rfl, ha⟩⟩

/-- C1: on any tick that consumes the pellet (legal, non-fatal move onto the
pellet) and returns a state, the new pellet is exactly the image of the first
index of the stride scan whose candidate is a valid cell unoccupied by the
(already grown) trail; consequently the new pellet satisfies `isValidCell` and
no trail segment occupies it.  Stated for every state, so in particular for
every reachable one; the hash oracle `H` abstracts the salt/score hash. -/
theorem pellet_respawn_first_candidate (cfg : RasterConfig) (H : Nat → Int) (s s' : GameState)
    (head0 : Segment) (rest : List Segment)
    (ha : s.alive = true) (hw : s.worm = head0 :: rest)
    (hleg : canMoveTo cfg head0 (head0.moved s.heading).x (head0.moved s.heading).y = true)
    (hself : collidesSelf s.worm (head0.moved s.heading) = false)
    (hbar : collidesBarrel s.barrels (head0.moved s.heading) = false)
    (hpel : ((head0.moved s.heading).x == s.pellet.x &&
        (head0.moved s.heading).y == s.pellet.y) = true)
    (ht : tick cfg H s = some s') :
    s'.worm = (head0.moved s.heading) :: s.worm ∧
    spawnPellet cfg
      (H ((if ((head0.moved s.heading).x == cfg.goalPos.1 &&
              (head0.moved s.heading).y == cfg.goalPos.2)
           then s.score + cfg.goalBonus else s.score) + cfg.scorePerPellet))
      ((head0.moved s.heading) :: s.worm) = some s'.pellet ∧
    (∃ i, i < (cfg.width * cfg.height).toNat ∧
      s'.pellet = pelletCandidate cfg
        (H ((if ((head0.moved s.heading).x == cfg.goalPos.1 &&
                (head0.moved s.heading).y == cfg.goalPos.2)
             then s.score + cfg.goalBonus else s.score) + cfg.scorePerPellet)) i ∧
      acceptPellet cfg
        (H ((if ((head0.moved s.heading).x == cfg.goalPos.1 &&
                (head0.moved s.heading).y == cfg.goalPos.2)
             then s.score + cfg.goalBonus else s.score) + cfg.scorePerPellet))
        ((head0.moved s.heading) :: s.worm) i = true ∧
      ∀ j, j < i → acceptPellet cfg
        (H ((if ((head0.moved s.heading).x == cfg.goalPos.1 &&
                (head0.moved s.heading).y == cfg.goalPos.2)
             then s.score + cfg.goalBonus else s.score) + cfg.scorePerPellet))
        ((head0.moved s.heading) :: s.worm) j = false) ∧
    isValidCell cfg s'.pellet.x s'.pellet.y = true ∧
    s'.worm.contains s'.pellet = false := by
  cases hsp : spawnPellet cfg
      (H ((if ((head0.moved s.heading).x == cfg.goalPos.1 &&
              (head0.moved s.heading).y == cfg.goalPos.2)
           then s.score + cfg.goalBonus else s.score) + cfg.scorePerPellet))
      ((head0.moved s.heading) :: s.worm) with
  | none =>
    rw [tick_consume_none cfg H s head0 rest ha hw hleg hself hbar hpel hsp] at ht
    cases ht
  | some p =>
    rw [tick_consume_some cfg H s head0 rest p ha hw hleg hself hbar hpel hsp] at ht
    obtain ⟨hworm, -, -, hpellet, -, -, -⟩ := barrelPhase_some_inv _ _ _ ht
    have hp : s'.pellet = p := hpellet
    have hsp' := hsp
    unfold spawnPellet at hsp'
    obtain ⟨i0, hfind, hcand⟩ := Option.map_eq_some'.mp hsp'
    obtain ⟨hlt, hacc, hfirst⟩ := find?_range_first hfind
    have hacc2 := hacc
    unfold acceptPellet at hacc2
    rw [Bool.and_eq_true] at hacc2
    obtain ⟨hval, hncon⟩ := hacc2
    rw [Bool.not_eq_true'] at hncon
    refine ⟨hworm, ?_, ⟨i0, hlt, ?_, hacc, hfirst⟩, ?_, ?_⟩
    · rw [hp]
    · rw [hp, ← hcand]
    · rw [hp, ← hcand]
      exact hval
    · rw [hworm, hp, ← hcand]
      exact hncon

theorem pellet_respawn_first_candidate_witness :
    c1Result.worm = Segment.moved ⟨5, 6⟩ Dir.east :: c1State.worm ∧
    isValidCell defaultConfig c1Result.pellet.x c1Result.pellet.y = true ∧
    c1Result.worm.contains c1Result.pellet = false := by
  have h := pellet_respawn_first_candidate defaultConfig zeroHash c1State c1Result ⟨5, 6⟩ []
    rfl rfl (by decide) (by decide) (by decide) (by decide) (by decide)
  exact ⟨h.1, h.2.2.2.1, h.2.2.2.2⟩

/-- C2 counterexample: at the initial state the northward move is illegal, yet
`tick` does change the state — the tick counter goes from 0 to 1 — so the
claim that an absorbed move leaves the tick counter (and hence the whole
state) identical is false. -/
theorem absorbed_tick_changes_counter :
    initState.alive = true ∧
    canMoveTo defaultConfig ⟨18, 22⟩ (Segment.moved ⟨18, 22⟩ Dir.north).x
      (Segment.moved ⟨18, 22⟩ Dir.north).y = false ∧
    tick defaultConfig zeroHash initState ≠ some initState ∧
    (tick defaultConfig zeroHash initState).map GameState.tickCount =
      some (initState.tickCount + 1) := by
  decide

/-- C2 amended: on an ALIVE state whose candidate head is rejected by the
legality check, `tick` leaves heading, trail, score, pellet, alive flag,
goal-reached count and all hazards identical, and increments exactly the tick
counter by one. -/
theorem absorbed_move_frame (cfg : RasterConfig) (H : Nat → Int) (s s' : GameState)
    (head0 : Segment) (rest : List Segment)
    (ha : s.alive = true) (hw : s.worm = head0 :: rest)
    (hleg : canMoveTo cfg head0 (head0.moved s.heading).x (head0.moved s.heading).y = false)
    (ht : tick cfg H s = some s') :
    s'.heading = s.heading ∧ s'.worm = s.worm ∧ s'.score = s.score ∧
    s'.pellet = s.pellet ∧ s'.alive = s.alive ∧ s'.goalReached = s.goalReached ∧
    s'.barrels = s.barrels ∧ s'.tickCount = s.tickCount + 1 := by
  rw [tick_illegal cfg H s head0 rest ha hw hleg] at ht
  injection ht with ht
  subst ht
  exact ⟨rfl, rfl, rfl, rfl, rfl, rfl, rfl, rfl⟩

theorem absorbed_move_frame_witness :
    ({ initState with tickCount := 1 } : GameState).heading = initState.heading ∧
    ({ initState with tickCount := 1 } : GameState).worm = initState.worm ∧
    ({ initState with tickCount := 1 } : GameState).score = initState.score ∧
    ({ initState with tickCount := 1 } : GameState).pellet = initState.pellet ∧
    ({ initState with tickCount := 1 } : GameState).alive = initState.alive ∧
    ({ initState with tickCount := 1 } : GameState).goalReached = initState.goalReached ∧
    ({ initState with tickCount := 1 } : GameState).barrels = initState.barrels ∧
    ({ initState with tickCount := 1 } : GameState).tickCount = initState.tickCount + 1 :=
  absorbed_move_frame defaultConfig zeroHash initState { initState with tickCount := 1 }
    ⟨18, 22⟩ [] rfl rfl (by decide) (by decide)

/-- C3: the movement-legality decision of `_can_move_to` coincides with the
ordered rule table of §4.2 (first matching rule decides) at every current
head position and candidate target, for every configuration. -/
theorem moveLegality_eq_specRuleTable (cfg : RasterConfig) (cur : Segment) (nx ny : Int) :
    canMoveTo cfg cur nx ny = specMoveRule cfg cur nx ny := rfl

/-- C4 counterexample: two absorbed (illegal) moves from the initial state —
after the second call the tick counter is 2, the state is ALIVE, and
2 is evenly divisible by the hazard interval, yet every hazard is exactly
where it started even though an advancement step would have moved it;
hazard advancement is gated by the move being legal, contradicting the
claim. -/
theorem hazards_gated_by_move :
    tick defaultConfig zeroHash initState = some { initState with tickCount := 1 } ∧
    tick defaultConfig zeroHash { initState with tickCount := 1 } =
      some { initState with tickCount := 2 } ∧
    ({ initState with tickCount := 1 } : GameState).alive = true ∧
    (({ initState with tickCount := 1 } : GameState).tickCount + 1) %
      defaultConfig.barrelTickInterval = 0 ∧
    ({ initState with tickCount := 2 } : GameState).barrels = initState.barrels ∧
    initState.barrels.map (fun b => b.tick defaultConfig) ≠ initState.barrels := by
  decide

/-- C4 amended: on a tick of an ALIVE simulation whose move is legal and
non-fatal, if the incremented tick counter is evenly divisible by the hazard
interval then every hazard is advanced exactly one step as a batch and the
head is re-checked against the advanced hazards (the alive flag survives
exactly when no advanced hazard occupies the head cell); if the incremented
counter is not divisible, no hazard changes and the simulation stays alive.
On illegal or fatal ticks the hazards are also unchanged. -/
theorem hazard_batch_advancement (cfg : RasterConfig) (H : Nat → Int) (s s' : GameState)
    (head0 : Segment) (rest : List Segment)
    (ha : s.alive = true) (hw : s.worm = head0 :: rest)
    (hleg : canMoveTo cfg head0 (head0.moved s.heading).x (head0.moved s.heading).y = true)
    (hself : collidesSelf s.worm (head0.moved s.heading) = false)
    (hbar : collidesBarrel s.barrels (head0.moved s.heading) = false)
    (ht : tick cfg H s = some s') :
    ((s.tickCount + 1) % cfg.barrelTickInterval = 0 →
        s'.barrels = s.barrels.map (fun b => b.tick cfg) ∧
        s'.alive = !collidesBarrel (s.barrels.map fun b => b.tick cfg)
          (head0.moved s.heading)) ∧
    (¬ (s.tickCount + 1) % cfg.barrelTickInterval = 0 →
        s'.barrels = s.barrels ∧ s'.alive = true) := by
  cases hpel : ((head0.moved s.heading).x == s.pellet.x &&
      (head0.moved s.heading).y == s.pellet.y) with
  | true =>
    cases hsp : spawnPellet cfg
        (H ((if ((head0.moved s.heading).x == cfg.goalPos.1 &&
                (head0.moved s.heading).y == cfg.goalPos.2)
             then s.score + cfg.goalBonus else s.score) + cfg.scorePerPellet))
        ((head0.moved s.heading) :: s.worm) with
    | none =>
      rw [tick_consume_none cfg H s head0 rest ha hw hleg hself hbar hpel hsp] at ht
      cases ht
    | some p =>
      rw [tick_consume_some cfg H s head0 rest p ha hw hleg hself hbar hpel hsp] at ht
      exact barrelPhase_c4 ht rfl ha
  | false =>
    rw [tick_plain cfg H s head0 rest ha hw hleg hself hbar hpel] at ht
    have hw2 : (((head0.moved s.heading) :: s.worm).dropLast) =
        (head0.moved s.heading) :: ((head0 :: rest).dropLast) := by
      rw [hw, List.dropLast_cons₂]
    exact barrelPhase_c4 ht hw2 ha

theorem hazard_batch_advancement_witness :
    c4wResult.barrels = c4wState.barrels.map (fun b => b.tick defaultConfig) ∧
    c4wResult.alive = !collidesBarrel (c4wState.barrels.map fun b => b.tick defaultConfig)
      (Segment.moved ⟨5, 6⟩ Dir.east) :=
  (hazard_batch_advancement defaultConfig zeroHash c4wState c4wResult ⟨5, 6⟩ [] rfl rfl
    (by decide) (by decide) (by decide) (by decide)).1 (by decide)

/-- C5: TERMINATED is absorbing — once the alive flag is false, `tick` (for
any hash oracle), `turn_left` and `turn_right` return the state unchanged, so
score, trail, pellet, hazards, goal-reached count, heading and tick counter
never change. -/
theorem terminated_absorbing (cfg : RasterConfig) (H : Nat → Int) (s : GameState)
    (h : s.alive = false) :
    tick cfg H s = some s ∧ turnLeft s = s ∧ turnRight s = s :=
  ⟨tick_dead cfg H s h, by simp [turnLeft, h], by simp [turnRight, h]⟩

theorem terminated_absorbing_witness :
    tick defaultConfig zeroHash deadState = some deadState ∧
    turnLeft deadState = deadState ∧ turnRight deadState = deadState :=
  terminated_absorbing defaultConfig zeroHash deadState rfl

/-- C6: in every reachable state (default configuration) each hazard sits on a
cell satisfying `isValidCell` and keeps the row of the corresponding starting
hazard; moreover a single advancement step from a valid cell never changes the
row, reverses direction in place exactly when the next cell would leave the
grid horizontally or is invalid, moves one cell in the current direction
otherwise, and always ends on a valid cell. -/
theorem barrel_invariant (s : GameState) (h : Reach s) :
    List.Forall₂ barrelOk s.barrels initState.barrels ∧
    ∀ b : Barrel, isValidCell defaultConfig b.x b.y = true →
      (b.tick defaultConfig).y = b.y ∧
      isValidCell defaultConfig (b.tick defaultConfig).x (b.tick defaultConfig).y = true ∧
      ((b.x + b.dx < 0 ∨ defaultConfig.width ≤ b.x + b.dx ∨
          isValidCell defaultConfig (b.x + b.dx) b.y = false) →
        b.tick defaultConfig = ⟨b.x, b.y, -b.dx⟩) ∧
      ((0 ≤ b.x + b.dx ∧ b.x + b.dx < defaultConfig.width ∧
          isValidCell defaultConfig (b.x + b.dx) b.y = true) →
        b.tick defaultConfig = ⟨b.x + b.dx, b.y, b.dx⟩) := by
  refine ⟨(reach_inv s h).1, ?_⟩
  intro b hv
  refine ⟨barrel_tick_y defaultConfig b, barrel_tick_valid defaultConfig b hv, ?_, ?_⟩
  · intro hcond
    simp only [Barrel.tick]
    split
    · rfl
    · rename_i h1
      split
      · rfl
      · rename_i h2
        exfalso
        rcases hcond with hc | hc | hc
        · exact h1 (Or.inl hc)
        · exact h1 (Or.inr hc)
        · exact h2 hc
  · rintro ⟨h0, hlt, hval⟩
    simp only [Barrel.tick]
    split
    · rename_i h1
      exfalso
      rcases h1 with h1 | h1 <;> omega
    · split
      · rename_i h2
        rw [hval] at h2
        cases h2
      · rfl

theorem barrel_invariant_witness :
    List.Forall₂ barrelOk initState.barrels initState.barrels :=
  (barrel_invariant initState Reach.init).1

/-- C7: in every reachable state the trail has length at least one while the
simulation is alive (indeed always), and the trail has length exactly one
immediately after construction. -/
theorem trail_length_invariant (s : GameState) (h : Reach s) :
    (s.alive = true → 1 ≤ s.worm.length) ∧ initState.worm.length = 1 :=
  ⟨fun _ => (reach_inv s h).2, rfl⟩

theorem trail_length_invariant_witness :
    1 ≤ initState.worm.length ∧ initState.worm.length = 1 :=
  ⟨(trail_length_invariant initState Reach.init).1 rfl,
   (trail_length_invariant initState Reach.init).2⟩

/-- C8 counterexample: a legal, non-fatal tick consuming a pellet that lies on
the goal cell increases the score by goal bonus plus per-pellet value
(111), not by exactly the per-pellet value (11). -/
theorem pellet_score_goal_overlap :
    c8CexState.alive = true ∧
    canMoveTo defaultConfig ⟨17, 2⟩ (Segment.moved ⟨17, 2⟩ Dir.east).x
      (Segment.moved ⟨17, 2⟩ Dir.east).y = true ∧
    collidesSelf c8CexState.worm (Segment.moved ⟨17, 2⟩ Dir.east) = false ∧
    collidesBarrel c8CexState.barrels (Segment.moved ⟨17, 2⟩ Dir.east) = false ∧
    Segment.moved ⟨17, 2⟩ Dir.east = c8CexState.pellet ∧
    (tick defaultConfig zeroHash c8CexState).map GameState.score = some 111 ∧
    c8CexState.score + defaultConfig.scorePerPellet = 11 ∧ (111 : Nat) ≠ 11 := by
  decide

/-- C8 amended: on a legal, non-fatal tick whose candidate head equals the
pellet position, the score grows by the per-pellet value on top of the goal
bonus if the head is also the goal cell (and by exactly the per-pellet value
otherwise), and the trail length grows by exactly one; on a legal, non-fatal
tick not consuming the pellet, the trail length is unchanged. -/
theorem pellet_scoring_and_growth (cfg : RasterConfig) (H : Nat → Int) (s s' : GameState)
    (head0 : Segment) (rest : List Segment)
    (ha : s.alive = true) (hw : s.worm = head0 :: rest)
    (hleg : canMoveTo cfg head0 (head0.moved s.heading).x (head0.moved s.heading).y = true)
    (hself : collidesSelf s.worm (head0.moved s.heading) = false)
    (hbar : collidesBarrel s.barrels (head0.moved s.heading) = false)
    (ht : tick cfg H s = some s') :
    (((head0.moved s.heading).x == s.pellet.x &&
        (head0.moved s.heading).y == s.pellet.y) = true →
      s'.score = (if ((head0.moved s.heading).x == cfg.goalPos.1 &&
                     (head0.moved s.heading).y == cfg.goalPos.2)
                  then s.score + cfg.goalBonus else s.score) + cfg.scorePerPellet ∧
      s'.worm.length = s.worm.length + 1) ∧
    (((head0.moved s.heading).x == s.pellet.x &&
        (head0.moved s.heading).y == s.pellet.y) = false →
      s'.worm.length = s.worm.length) := by
  constructor
  · intro hpel
    cases hsp : spawnPellet cfg
        (H ((if ((head0.moved s.heading).x == cfg.goalPos.1 &&
                (head0.moved s.heading).y == cfg.goalPos.2)
             then s.score + cfg.goalBonus else s.score) + cfg.scorePerPellet))
        ((head0.moved s.heading) :: s.worm) with
    | none =>
      rw [tick_consume_none cfg H s head0 rest ha hw hleg hself hbar hpel hsp] at ht
      cases ht
    | some p =>
      rw [tick_consume_some cfg H s head0 rest p ha hw hleg hself hbar hpel hsp] at ht
      obtain ⟨hworm, -, hscore, -, -, -, -⟩ := barrelPhase_some_inv _ _ _ ht
      constructor
      · rw [hscore]
      · rw [hworm]
        simp
  · intro hpel
    rw [tick_plain cfg H s head0 rest ha hw hleg hself hbar hpel] at ht
    obtain ⟨hworm, -, -, -, -, -, -⟩ := barrelPhase_some_inv _ _ _ ht
    rw [hworm]
    simp

theorem pellet_scoring_and_growth_witness :
    c8wResult.score = 11 ∧ c8wResult.worm.length = c8wState.worm.length + 1 := by
  have h := (pellet_scoring_and_growth defaultConfig zeroHash c8wState c8wResult ⟨7, 6⟩ []
    rfl rfl (by decide) (by decide) (by decide) (by decide)).1 (by decide)
  refine ⟨?_, h.2⟩
  rw [h.1]
  decide

/-- C9: when every candidate of the exhaustive `width*height` scan is either
invalid or occupied by the trail, pellet placement yields no cell and the
consuming `tick` surfaces the failure to the caller as an error (`none`)
instead of silently returning a state. -/
theorem pellet_exhaustion_surfaced (cfg : RasterConfig) (H : Nat → Int) (s : GameState)
    (head0 : Segment) (rest : List Segment)
    (ha : s.alive = true) (hw : s.worm = head0 :: rest)
    (hleg : canMoveTo cfg head0 (head0.moved s.heading).x (head0.moved s.heading).y = true)
    (hself : collidesSelf s.worm (head0.moved s.heading) = false)
    (hbar : collidesBarrel s.barrels (head0.moved s.heading) = false)
    (hpel : ((head0.moved s.heading).x == s.pellet.x &&
        (head0.moved s.heading).y == s.pellet.y) = true)
    (hex : ∀ i, i < (cfg.width * cfg.height).toNat →
      acceptPellet cfg
        (H ((if ((head0.moved s.heading).x == cfg.goalPos.1 &&
                (head0.moved s.heading).y == cfg.goalPos.2)
             then s.score + cfg.goalBonus else s.score) + cfg.scorePerPellet))
        ((head0.moved s.heading) :: s.worm) i = false) :
    spawnPellet cfg
      (H ((if ((head0.moved s.heading).x == cfg.goalPos.1 &&
              (head0.moved s.heading).y == cfg.goalPos.2)
           then s.score + cfg.goalBonus else s.score) + cfg.scorePerPellet))
      ((head0.moved s.heading) :: s.worm) = none ∧
    tick cfg H s = none := by
  have hfind : (List.range (cfg.width * cfg.height).toNat).find?
      (acceptPellet cfg
        (H ((if ((head0.moved s.heading).x == cfg.goalPos.1 &&
                (head0.moved s.heading).y == cfg.goalPos.2)
             then s.score + cfg.goalBonus else s.score) + cfg.scorePerPellet))
        ((head0.moved s.heading) :: s.worm)) = none := by
    rw [List.find?_eq_none]
    intro j hj
    rw [hex j (List.mem_range.mp hj)]
    simp
  have hsp : spawnPellet cfg
      (H ((if ((head0.moved s.heading).x == cfg.goalPos.1 &&
              (head0.moved s.heading).y == cfg.goalPos.2)
           then s.score + cfg.goalBonus else s.score) + cfg.scorePerPellet))
      ((head0.moved s.heading) :: s.worm) = none := by
    unfold spawnPellet
    rw [hfind]
    rfl
  exact ⟨hsp, tick_consume_none cfg H s head0 rest ha hw hleg hself hbar hpel hsp⟩

theorem pellet_exhaustion_surfaced_witness :
    tick satConfig zeroHash satState = none := by
  have h := pellet_exhaustion_surfaced satConfig zeroHash satState ⟨0, 1⟩ [⟨0, 2⟩]
    rfl rfl (by decide) (by decide) (by decide) (by decide) (by decide)
  exact h.2

/-- C10: when the candidate head is rejected by the legality check on an ALIVE
state, `tick` changes exactly the tick counter, incrementing it by one:
the returned state is the input with `tickCount + 1`, so heading, trail,
score, pellet, alive flag, goal count and every hazard are untouched — in
particular the hazards do not advance even when the incremented counter is
divisible by the hazard interval. -/
theorem illegal_move_only_ticks (cfg : RasterConfig) (H : Nat → Int) (s : GameState)
    (head0 : Segment) (rest : List Segment)
    (ha : s.alive = true) (hw : s.worm = head0 :: rest)
    (hleg : canMoveTo cfg head0 (head0.moved s.heading).x (head0.moved s.heading).y = false) :
    tick cfg H s = some { s with tickCount := s.tickCount + 1 } :=
  tick_illegal cfg H s head0 rest ha hw hleg

theorem illegal_move_only_ticks_witness :
    tick defaultConfig zeroHash initState =
      some { initState with tickCount := initState.tickCount + 1 } :=
  illegal_move_only_ticks defaultConfig zeroHash initState ⟨18, 22⟩ [] rfl rfl (by decide)

end NokiaClassics
